import Mathlib

/-!
Verification of `lib/http/httpauth/auth.go` (client-side HTTP authentication:
Basic and RFC 7616 Digest).

The Go source is shallowly embedded below.  Go strings are modelled as Lean
`String` (lists of characters); Go's byte-level accesses in the source only
ever inspect ASCII bytes (`"`, `,`, `\`), for which byte and character
indexing coincide.  Go run-time slice-range errors are modelled by returning
`none` from an `Option`-valued function.  The external collaborators
(`crypto/rand`, the `http.Request`/`http.Response` object model) are passed
in as explicit parameters or modelled from the specification, as marked on
each definition.
-/

/-! ## Go string primitives

The source uses `strings.Split` with the separators `" "`, `":"`, `"\""`
(single characters) and `", "` (two characters), `strings.Join`,
`strings.Replace(s, "\\\"", "\"", -1)` and `strings.HasSuffix`.  These are
reimplemented here (leftmost, non-overlapping matches, exactly as Go's
`strings` package behaves for non-empty separators).
-/

/-- Go `strings.Split(s, string(c))` for a one-character separator, on
character lists.  Always returns a non-empty list; `Split("", sep) = [""]`. -/
def splitCharL (c : Char) : List Char → List (List Char)
  | [] => [[]]
  | a :: rest =>
    if a = c then
      [] :: splitCharL c rest
    else
      match splitCharL c rest with
      | [] => [[a]]
      | t :: ts => (a :: t) :: ts

/-- Go `strings.Split(s, ⟨c1, c2⟩)` for a two-character separator
(leftmost non-overlapping matches), on character lists. -/
def split2L (c1 c2 : Char) : List Char → List (List Char)
  | [] => [[]]
  | [a] => [[a]]
  | a :: b :: rest =>
    if a = c1 ∧ b = c2 then
      [] :: split2L c1 c2 rest
    else
      match split2L c1 c2 (b :: rest) with
      | [] => [[a]]
      | t :: ts => (a :: t) :: ts

/-- Go `strings.Join` on character lists. -/
def goJoinL (sep : List Char) : List (List Char) → List Char
  | [] => []
  | [x] => x
  | x :: xs => x ++ sep ++ goJoinL sep xs

/-- Go `strings.Replace(s, "\\\"", "\"", -1)`: replace every (leftmost,
non-overlapping) occurrence of backslash-quote by a bare quote. -/
def replaceEscQuote : List Char → List Char
  | [] => []
  | [a] => [a]
  | a :: b :: rest =>
    if a = '\\' ∧ b = '\"' then
      '\"' :: replaceEscQuote rest
    else
      a :: replaceEscQuote (b :: rest)

/-- Go `strings.Split` with a one-character separator, on `String`. -/
def goSplitChar (c : Char) (s : String) : List String :=
  (splitCharL c s.data).map String.mk

/-- Go `strings.Split` with a two-character separator, on `String`. -/
def goSplit2 (c1 c2 : Char) (s : String) : List String :=
  (split2L c1 c2 s.data).map String.mk

/-- Go `strings.Join` on `String`. -/
def goJoin (sep : String) : List String → String
  | [] => ""
  | [x] => x
  | x :: xs => x ++ sep ++ goJoin sep xs

/-- Go `strings.HasSuffix`. -/
def goHasSuffix (s suffix : String) : Bool :=
  suffix.data.isSuffixOf s.data

/-- Go `s[:len(s)-n]` for an `n`-byte ASCII tail (character-level model). -/
def dropRightStr (s : String) (n : Nat) : String :=
  String.mk (s.data.take (s.data.length - n))

/-! ## Go map primitives

`map[string]V` is modelled as an association list with unique keys in
insertion order: `mapInsert` overwrites the value of an existing key in
place and appends a fresh key at the end, which realises Go's
last-write-wins map assignment; `mapLookup` finds the (unique) entry.
Reading a missing key of a `map[string]string` yields `""` in Go
(`getStr`).
-/

/-- Go map assignment `m[k] = v`. -/
def mapInsert {α : Type} : List (String × α) → String → α → List (String × α)
  | [], k, v => [(k, v)]
  | (k', v') :: rest, k, v =>
    if k' = k then (k', v) :: rest else (k', v') :: mapInsert rest k v

/-- Go map read `m[k]` with presence flag. -/
def mapLookup {α : Type} : List (String × α) → String → Option α
  | [], _ => none
  | (k', v') :: rest, k => if k' = k then some v' else mapLookup rest k

/-- Go map read `m[k]` on a `map[string]string` (missing key reads as ""). -/
def getStr (m : List (String × String)) (k : String) : String :=
  (mapLookup m k).getD ""

/-- Keys of a modelled Go map. -/
def mapKeys {α : Type} (m : List (String × α)) : List String :=
  m.map Prod.fst

/-! ## Byte-level helpers: hex formatting, UTF-8, base64

These model Go's `fmt.Sprintf("%x", ...)` / `fmt.Sprintf("%08x", ...)`,
the `[]byte(s)` conversion (UTF-8), and `encoding/base64` standard padded
encoding, all of which the source relies on.
-/

/-- Lower-case hexadecimal digit. -/
def hexDigit (n : Nat) : Char :=
  if n < 10 then Char.ofNat (48 + n) else Char.ofNat (87 + n)

/-- Big-endian hexadecimal rendering of `n` with exactly `digits` digits. -/
def toHexPad (digits n : Nat) : List Char :=
  match digits with
  | 0 => []
  | d + 1 => toHexPad d (n / 16) ++ [hexDigit (n % 16)]

/-- Go `fmt.Sprintf("%08x", n)`. -/
def sprintf08x (n : Nat) : String :=
  String.mk (toHexPad 8 n)

/-- UTF-8 encoding of one character (Go `[]byte(string)` byte values). -/
def utf8Bytes (c : Char) : List Nat :=
  let n := c.toNat
  if n < 128 then [n]
  else if n < 2048 then [192 + n / 64, 128 + n % 64]
  else if n < 65536 then [224 + n / 4096, 128 + n / 64 % 64, 128 + n % 64]
  else [240 + n / 262144, 128 + n / 4096 % 64, 128 + n / 64 % 64, 128 + n % 64]

/-- Go `[]byte(s)`: the UTF-8 bytes of a string, as `Nat`s below 256. -/
def strBytes (s : String) : List Nat :=
  (s.data.map utf8Bytes).flatten

/-- Standard base64 alphabet (Go `encoding/base64.StdEncoding`). -/
def b64Alphabet : List Char :=
  "ABCDEFGHIJKLMNOPQRSTUVWXYZabcdefghijklmnopqrstuvwxyz0123456789+/".data

/-- Character `n` (0–63) of the standard base64 alphabet. -/
def b64Char (n : Nat) : Char :=
  b64Alphabet.getD n 'A'

/-- Go `base64.StdEncoding.EncodeToString` (standard alphabet, padded). -/
def base64Encode : List Nat → String
  | [] => ""
  | [a] => String.mk [b64Char (a / 4), b64Char (a % 4 * 16), '=', '=']
  | [a, b] => String.mk [b64Char (a / 4), b64Char (a % 4 * 16 + b / 16), b64Char (b % 16 * 4), '=']
  | a :: b :: c :: rest =>
    String.mk [b64Char (a / 4), b64Char (a % 4 * 16 + b / 16),
               b64Char (b % 16 * 4 + c / 64), b64Char (c % 64)] ++ base64Encode rest

/-! ## Hash functions

The source's algorithm table maps `"MD5"`, `"SHA-256"` and `"SHA-512-256"`
to hex-rendering wrappers around `crypto/md5`, `crypto/sha256` and
`crypto/sha512.Sum512_256`.  The three digests are implemented here from
their standard definitions over `Nat` with explicit reduction modulo
`2 ^ 32` / `2 ^ 64`.  (They were checked against the published test
vectors, e.g. MD5("abc"), SHA-256("abc"), SHA-512/256("abc").)
-/

/-- Split a list into consecutive chunks of `n + 1` elements. -/
def chunksOfSucc (n : Nat) : List Nat → List (List Nat)
  | [] => []
  | a :: rest => ((a :: rest).take (n + 1)) :: chunksOfSucc n ((a :: rest).drop (n + 1))
termination_by l => l.length
decreasing_by simp [List.length_drop]; omega

/-- Little-endian byte rendering of `n` on `count` bytes. -/
def leBytes (count n : Nat) : List Nat :=
  match count with
  | 0 => []
  | c + 1 => n % 256 :: leBytes c (n / 256)

/-- Value of a little-endian byte list. -/
def leNum : List Nat → Nat
  | [] => 0
  | b :: rest => b + 256 * leNum rest

/-- Value of a big-endian byte list. -/
def beNum (l : List Nat) : Nat :=
  l.foldl (fun acc b => acc * 256 + b) 0

/-- Big-endian byte rendering of `n` on `count` bytes. -/
def beBytes (count n : Nat) : List Nat :=
  (leBytes count n).reverse

/-- All 32-bit ones. -/
def mask32 : Nat := 4294967295

/-- 32-bit complement (inputs below `2 ^ 32`). -/
def not32 (x : Nat) : Nat := mask32 - x

/-- 32-bit left rotation. -/
def rotl32 (x n : Nat) : Nat := (x <<< n ||| x >>> (32 - n)) &&& mask32

/-- 32-bit right rotation. -/
def rotr32 (x n : Nat) : Nat := (x >>> n ||| x <<< (32 - n)) &&& mask32

/-- MD5 sine-table constants. -/
def md5K : List Nat :=
  [   3614090360, 3905402710, 606105819, 3250441966,
   4118548399, 1200080426, 2821735955, 4249261313,
   1770035416, 2336552879, 4294925233, 2304563134,
   1804603682, 4254626195, 2792965006, 1236535329,
   4129170786, 3225465664, 643717713, 3921069994,
   3593408605, 38016083, 3634488961, 3889429448,
   568446438, 3275163606, 4107603335, 1163531501,
   2850285829, 4243563512, 1735328473, 2368359562,
   4294588738, 2272392833, 1839030562, 4259657740,
   2763975236, 1272893353, 4139469664, 3200236656,
   681279174, 3936430074, 3572445317, 76029189,
   3654602809, 3873151461, 530742520, 3299628645,
   4096336452, 1126891415, 2878612391, 4237533241,
   1700485571, 2399980690, 4293915773, 2240044497,
   1873313359, 4264355552, 2734768916, 1309151649,
   4149444226, 3174756917, 718787259, 3951481745]

/-- MD5 per-round left-rotation amounts. -/
def md5S : List Nat :=
  [7, 12, 17, 22, 7, 12, 17, 22, 7, 12, 17, 22, 7, 12, 17, 22,
   5, 9, 14, 20, 5, 9, 14, 20, 5, 9, 14, 20, 5, 9, 14, 20,
   4, 11, 16, 23, 4, 11, 16, 23, 4, 11, 16, 23, 4, 11, 16, 23,
   6, 10, 15, 21, 6, 10, 15, 21, 6, 10, 15, 21, 6, 10, 15, 21]

/-- MD5 round mixing function. -/
def md5F (i b c d : Nat) : Nat :=
  if i < 16 then b &&& c ||| not32 b &&& d
  else if i < 32 then d &&& b ||| not32 d &&& c
  else if i < 48 then b ^^^ c ^^^ d
  else c ^^^ (b ||| not32 d)

/-- MD5 message-word index for round `i`. -/
def md5G (i : Nat) : Nat :=
  if i < 16 then i
  else if i < 32 then (5 * i + 1) % 16
  else if i < 48 then (3 * i + 5) % 16
  else 7 * i % 16

/-- One MD5 round on state `(a, b, c, d)`. -/
def md5Step (M : List Nat) (st : Nat × Nat × Nat × Nat) (i : Nat) : Nat × Nat × Nat × Nat :=
  match st with
  | (a, b, c, d) =>
    let f := (md5F i b c d + a + md5K.getD i 0 + M.getD (md5G i) 0) % 4294967296
    (d, (b + rotl32 f (md5S.getD i 0)) % 4294967296, b, c)

/-- MD5 compression of one 64-byte chunk. -/
def md5Chunk (st : Nat × Nat × Nat × Nat) (chunk : List Nat) : Nat × Nat × Nat × Nat :=
  let M := (chunksOfSucc 3 chunk).map leNum
  match (List.range 64).foldl (md5Step M) st, st with
  | (a, b, c, d), (a0, b0, c0, d0) =>
    ((a0 + a) % 4294967296, (b0 + b) % 4294967296, (c0 + c) % 4294967296, (d0 + d) % 4294967296)

/-- MD5 padding: `0x80`, zeros to 56 mod 64, 8-byte little-endian bit length. -/
def md5Pad (msg : List Nat) : List Nat :=
  msg ++ [128] ++ List.replicate ((120 - (msg.length + 1) % 64) % 64) 0
      ++ leBytes 8 (msg.length * 8)

/-- MD5 digest bytes of a byte message. -/
def md5Bytes (msg : List Nat) : List Nat :=
  match (chunksOfSucc 63 (md5Pad msg)).foldl md5Chunk
      (1732584193, 4023233417, 2562383102, 271733878) with
  | (a, b, c, d) => leBytes 4 a ++ leBytes 4 b ++ leBytes 4 c ++ leBytes 4 d

/-- Lower-case hex rendering of a byte list (Go `fmt.Sprintf("%x", ...)`). -/
def bytesToHex (bs : List Nat) : String :=
  String.mk ((bs.map (toHexPad 2)).flatten)

/-- The source's `"MD5"` algorithm entry: hex-rendered MD5 of the string. -/
def md5hex (s : String) : String :=
  bytesToHex (md5Bytes (strBytes s))

/-- SHA-256 round constants. -/
def sha256K : List Nat :=
  [   1116352408, 1899447441, 3049323471, 3921009573,
   961987163, 1508970993, 2453635748, 2870763221,
   3624381080, 310598401, 607225278, 1426881987,
   1925078388, 2162078206, 2614888103, 3248222580,
   3835390401, 4022224774, 264347078, 604807628,
   770255983, 1249150122, 1555081692, 1996064986,
   2554220882, 2821834349, 2952996808, 3210313671,
   3336571891, 3584528711, 113926993, 338241895,
   666307205, 773529912, 1294757372, 1396182291,
   1695183700, 1986661051, 2177026350, 2456956037,
   2730485921, 2820302411, 3259730800, 3345764771,
   3516065817, 3600352804, 4094571909, 275423344,
   430227734, 506948616, 659060556, 883997877,
   958139571, 1322822218, 1537002063, 1747873779,
   1955562222, 2024104815, 2227730452, 2361852424,
   2428436474, 2756734187, 3204031479, 3329325298]

/-- SHA-256 initial state. -/
def sha256H0 : List Nat :=
  [   1779033703, 3144134277, 1013904242, 2773480762,
   1359893119, 2600822924, 528734635, 1541459225]

/-- SHA-256 message-schedule extension of the 16 chunk words to 64 words. -/
def sha256Extend (M : List Nat) : List Nat :=
  (List.range 48).foldl
    (fun W _ =>
      let t := W.length
      let w15 := W.getD (t - 15) 0
      let w2 := W.getD (t - 2) 0
      let s0 := rotr32 w15 7 ^^^ rotr32 w15 18 ^^^ w15 >>> 3
      let s1 := rotr32 w2 17 ^^^ rotr32 w2 19 ^^^ w2 >>> 10
      W ++ [(W.getD (t - 16) 0 + s0 + W.getD (t - 7) 0 + s1) % 4294967296])
    M

/-- One SHA-256 round on the 8-word state. -/
def sha256Step (W : List Nat) (st : List Nat) (i : Nat) : List Nat :=
  match st with
  | [a, b, c, d, e, f, g, h] =>
    let S1 := rotr32 e 6 ^^^ rotr32 e 11 ^^^ rotr32 e 25
    let ch := e &&& f ^^^ not32 e &&& g
    let t1 := (h + S1 + ch + sha256K.getD i 0 + W.getD i 0) % 4294967296
    let S0 := rotr32 a 2 ^^^ rotr32 a 13 ^^^ rotr32 a 22
    let mj := a &&& b ^^^ a &&& c ^^^ b &&& c
    let t2 := (S0 + mj) % 4294967296
    [(t1 + t2) % 4294967296, a, b, c, (d + t1) % 4294967296, e, f, g]
  | other => other

/-- SHA-256 compression of one 64-byte chunk. -/
def sha256Chunk (st : List Nat) (chunk : List Nat) : List Nat :=
  let W := sha256Extend ((chunksOfSucc 3 chunk).map beNum)
  let st2 := (List.range 64).foldl (sha256Step W) st
  (st.zip st2).map (fun p => (p.1 + p.2) % 4294967296)

/-- SHA-256 padding: `0x80`, zeros to 56 mod 64, 8-byte big-endian bit length. -/
def sha256Pad (msg : List Nat) : List Nat :=
  msg ++ [128] ++ List.replicate ((120 - (msg.length + 1) % 64) % 64) 0
      ++ beBytes 8 (msg.length * 8)

/-- The source's `"SHA-256"` algorithm entry: hex-rendered SHA-256. -/
def sha256hex (s : String) : String :=
  let st := (chunksOfSucc 63 (sha256Pad (strBytes s))).foldl sha256Chunk sha256H0
  String.mk ((st.map (toHexPad 8)).flatten)

/-- All 64-bit ones. -/
def mask64 : Nat := 18446744073709551615

/-- 64-bit complement (inputs below `2 ^ 64`). -/
def not64 (x : Nat) : Nat := mask64 - x

/-- 64-bit right rotation. -/
def rotr64 (x n : Nat) : Nat := (x >>> n ||| x <<< (64 - n)) &&& mask64

/-- SHA-512 round constants (80 words). -/
def sha512K : List Nat :=
  [   4794697086780616226, 8158064640168781261, 13096744586834688815, 16840607885511220156,
   4131703408338449720, 6480981068601479193, 10538285296894168987, 12329834152419229976,
   15566598209576043074, 1334009975649890238, 2608012711638119052, 6128411473006802146,
   8268148722764581231, 9286055187155687089, 11230858885718282805, 13951009754708518548,
   16472876342353939154, 17275323862435702243, 1135362057144423861, 2597628984639134821,
   3308224258029322869, 5365058923640841347, 6679025012923562964, 8573033837759648693,
   10970295158949994411, 12119686244451234320, 12683024718118986047, 13788192230050041572,
   14330467153632333762, 15395433587784984357, 489312712824947311, 1452737877330783856,
   2861767655752347644, 3322285676063803686, 5560940570517711597, 5996557281743188959,
   7280758554555802590, 8532644243296465576, 9350256976987008742, 10552545826968843579,
   11727347734174303076, 12113106623233404929, 14000437183269869457, 14369950271660146224,
   15101387698204529176, 15463397548674623760, 17586052441742319658, 1182934255886127544,
   1847814050463011016, 2177327727835720531, 2830643537854262169, 3796741975233480872,
   4115178125766777443, 5681478168544905931, 6601373596472566643, 7507060721942968483,
   8399075790359081724, 8693463985226723168, 9568029438360202098, 10144078919501101548,
   10430055236837252648, 11840083180663258601, 13761210420658862357, 14299343276471374635,
   14566680578165727644, 15097957966210449927, 16922976911328602910, 17689382322260857208,
   500013540394364858, 748580250866718886, 1242879168328830382, 1977374033974150939,
   2944078676154940804, 3659926193048069267, 4368137639120453308, 4836135668995329356,
   5532061633213252278, 6448918945643986474, 6902733635092675308, 7801388544844847127]

/-- SHA-512/256 initial state. -/
def sha512_256H0 : List Nat :=
  [   2463787394917988140, 11481187982095705282, 2563595384472711505, 10824532655140301501,
   10819967247969091555, 13717434660681038226, 3098927326965381290, 1060366662362279074]

/-- SHA-512 message-schedule extension of the 16 chunk words to 80 words. -/
def sha512Extend (M : List Nat) : List Nat :=
  (List.range 64).foldl
    (fun W _ =>
      let t := W.length
      let w15 := W.getD (t - 15) 0
      let w2 := W.getD (t - 2) 0
      let s0 := rotr64 w15 1 ^^^ rotr64 w15 8 ^^^ w15 >>> 7
      let s1 := rotr64 w2 19 ^^^ rotr64 w2 61 ^^^ w2 >>> 6
      W ++ [(W.getD (t - 16) 0 + s0 + W.getD (t - 7) 0 + s1) % 18446744073709551616])
    M

/-- One SHA-512 round on the 8-word state. -/
def sha512Step (W : List Nat) (st : List Nat) (i : Nat) : List Nat :=
  match st with
  | [a, b, c, d, e, f, g, h] =>
    let S1 := rotr64 e 14 ^^^ rotr64 e 18 ^^^ rotr64 e 41
    let ch := e &&& f ^^^ not64 e &&& g
    let t1 := (h + S1 + ch + sha512K.getD i 0 + W.getD i 0) % 18446744073709551616
    let S0 := rotr64 a 28 ^^^ rotr64 a 34 ^^^ rotr64 a 39
    let mj := a &&& b ^^^ a &&& c ^^^ b &&& c
    let t2 := (S0 + mj) % 18446744073709551616
    [(t1 + t2) % 18446744073709551616, a, b, c, (d + t1) % 18446744073709551616, e, f, g]
  | other => other

/-- SHA-512 compression of one 128-byte chunk. -/
def sha512Chunk (st : List Nat) (chunk : List Nat) : List Nat :=
  let W := sha512Extend ((chunksOfSucc 7 chunk).map beNum)
  let st2 := (List.range 80).foldl (sha512Step W) st
  (st.zip st2).map (fun p => (p.1 + p.2) % 18446744073709551616)

/-- SHA-512 padding: `0x80`, zeros to 112 mod 128, 16-byte big-endian bit length. -/
def sha512Pad (msg : List Nat) : List Nat :=
  msg ++ [128] ++ List.replicate ((240 - (msg.length + 1) % 128) % 128) 0
      ++ beBytes 16 (msg.length * 8)

/-- The source's `"SHA-512-256"` algorithm entry: hex-rendered
SHA-512/256 (Go `sha512.Sum512_256`). -/
def sha512_256hex (s : String) : String :=
  let st := (chunksOfSucc 127 (sha512Pad (strBytes s))).foldl sha512Chunk sha512_256H0
  String.mk (((st.take 4).map (toHexPad 16)).flatten)

/-! ## Data model

`credential` and `authenticator` mirror the structs of `auth.go`.
`Request` and `Response` model the consumed shapes of the external
`lib/http` package: per the specification, a request exposes a method
(empty meaning the default verb), a hostname and a request-target, and a
response may carry a header container from which the `Www-Authenticate`
value can be looked up.
-/

/-- The source's `credential` struct. -/
structure credential where
  Username : String
  Password : String
deriving DecidableEq, Repr

/-- The source's `authenticator` struct: a map from hosts to credentials. -/
structure authenticator where
  creds : List (String × credential)
deriving DecidableEq, Repr

/-- Modelled from the spec: the consumed request shape must expose a method
string (empty meaning the default verb), and a URL object from which the
hostname and the request-target (path plus query) can be derived.  The
concrete `http.Request` type is an external collaborator. -/
structure Request where
  Method : String
  Hostname : String
  RequestURI : String
deriving DecidableEq, Repr

/-- Modelled from the spec: the consumed response shape exposes a header
lookup for `Www-Authenticate` (the only header name the source reads); the
concrete `http.Header` container is an external collaborator.  A `Get` on a
header map with no such entry yields `""` in Go, so an absent header is the
value `""` here. -/
structure HeaderBag where
  wwwAuthenticate : String
deriving DecidableEq, Repr

/-- Modelled from the spec: a prior response; the header container pointer
may itself be nil (`none`). -/
structure Response where
  header : Option HeaderBag
deriving DecidableEq, Repr

/-! ## Credential Store (`NewAuthenticator`, `readCreds`, `populate`)

File-system access (`os.Open` plus the line scanner) is modelled by a
function `fs : String → Option (List String)` giving the lines of a
readable file and `none` when the open fails.  A Go `error` result is
modelled as `Bool` (`true` = non-nil error).
-/

/-- Lines 87–98 of `auth.go`, the payload split inside `populate`: split the
`username:password` payload on the first colon, preserving any further
colons in the password. -/
def splitUserPass (userpass : String) : credential :=
  let creds := goSplitChar ':' userpass
  { Username := creds.headD ""
    Password := if creds.length > 1 then goJoin ":" creds.tail else "" }

/-- The source's `populate`: record every pair of the given map in the
store, overwriting previous entries for the same host. -/
def populate (result : List (String × credential)) (hostsToCreds : List (String × String)) :
    List (String × credential) :=
  hostsToCreds.foldl (fun acc p => mapInsert acc p.1 (splitUserPass p.2)) result

/-- One line of the credentials file: the host is everything before the
first space, the payload everything after it (spaces preserved). -/
def credsLine (line : String) : String × String :=
  let parts := goSplitChar ' ' line
  (parts.headD "", if parts.length > 1 then goJoin " " parts.tail else "")

/-- The source's `readCreds`: open the file (`none` from `fs` models an
`os.Open` failure, returning a nil map and a non-nil error) and record the
host/payload pair of every line, later lines overwriting earlier ones. -/
def readCreds (fs : String → Option (List String)) (filename : String) :
    List (String × String) × Bool :=
  match fs filename with
  | none => ([], true)
  | some lines =>
    (lines.foldl (fun acc line => mapInsert acc (credsLine line).1 (credsLine line).2) [],
     false)

/-- The source's `NewAuthenticator`: populate from the optional file source
first, then from the optional explicit map (overriding file entries), and
return the store together with the error of `readCreds` (non-nil exactly
when a file name was given and the open failed). -/
def NewAuthenticator (fs : String → Option (List String)) (credsFilename : String)
    (hostsToCreds : Option (List (String × String))) : authenticator × Bool :=
  let fileStep :=
    if credsFilename ≠ "" then
      let rc := readCreds fs credsFilename
      (populate [] rc.1, rc.2)
    else ([], false)
  let st :=
    match hostsToCreds with
    | some m => populate fileStep.1 m
    | none => fileStep.1
  (⟨st⟩, fileStep.2)

/-! ## Challenge Parser (`parseWwwAuth`, `unquote`)

The two scanner flags and the token split of lines 101–124 are
`scanTokens`; the name/value extraction of lines 126–145 is `tokenValue`
and `buildParams`.  The Go code slices `token[:1]` and
`value[len(value)-1:]`; when `token` (respectively `value`) is empty these
are out-of-range slices that abort the program at run time, modelled by
`none`.
-/

/-- Lines 102–124 of `auth.go`: scan the header, splitting it at every
unquoted `=` while maintaining the `inQuotes` and `escaped` flags. -/
def scanTokens : List Char → Bool → Bool → List Char → List (List Char) → List (List Char)
  | [], _, _, chunk, tokens => tokens ++ [chunk]
  | c :: rest, inQuotes, escaped, chunk, tokens =>
    if c = '=' ∧ inQuotes = false then
      scanTokens rest inQuotes escaped [] (tokens ++ [chunk])
    else
      let inQuotes2 := if c = '\"' ∧ escaped = false then !inQuotes else inQuotes
      let escaped2 := if c = '\\' then !escaped else false
      scanTokens rest inQuotes2 escaped2 (chunk ++ [c]) tokens

/-- Lines 131–143 of `auth.go`: the value of the segment following an `=`.
If the segment starts with a quote the value is everything up to and
including the closing quote boundary (rejoin on quotes, drop the final
fragment, restore the closing quote); otherwise it is the first
space-delimited word (the preceding join assignment in the source is dead,
being unconditionally overwritten by `parts[0]`).  A single trailing comma
is stripped.  `none` models the out-of-range slices on an empty segment or
an empty first word. -/
def tokenValue (token : List Char) : Option (List Char) :=
  match token with
  | [] => none
  | t :: _ =>
    let value :=
      if t = '\"' then
        goJoinL ['\"'] (splitCharL '\"' token).dropLast ++ ['\"']
      else
        (splitCharL ' ' token).headD []
    match value with
    | [] => none
    | _ :: _ =>
      some (if value.getLast? = some ',' then value.dropLast else value)

/-- Lines 127–145 of `auth.go`: walk adjacent token pairs; the parameter
name is the last space-delimited word of the earlier token, the value comes
from `tokenValue` on the later token. -/
def buildParams : List Char → List (List Char) → List (String × String) →
    Option (List (String × String))
  | _, [], acc => some acc
  | prev, tok :: more, acc =>
    let name := String.mk ((splitCharL ' ' prev).getLastD [])
    match tokenValue tok with
    | none => none
    | some v => buildParams tok more (mapInsert acc name (String.mk v))

/-- The source's `parseWwwAuth` (lines 101–148): `none` models the Go
run-time abort on an out-of-range slice. -/
def parseWwwAuth (header : String) : Option (List (String × String)) :=
  match scanTokens header.data false false [] [] with
  | [] => some []
  | t0 :: rest => buildParams t0 rest []

/-- The source's `unquote` (lines 150–160): strip one matching pair of
surrounding double quotes (byte length at least two with quote bytes at
both ends), then un-escape backslash-quote to quote. -/
def unquote (s : String) : String :=
  if 2 ≤ s.data.length then
    let s2 :=
      if s.data.headD ' ' = '\"' ∧ s.data.getLastD ' ' = '\"' then
        String.mk ((s.data.drop 1).take (s.data.length - 2))
      else s
    String.mk (replaceEscQuote s2.data)
  else s

/-! ## Digest Engine (`getDigestAuth` and helpers)

The locals of `getDigestAuth` (lines 196–292) are factored into named
definitions, in source order: algorithm resolution with the `-sess` strip,
client-nonce generation (randomness passed in as the byte outcome of
`crypto/rand.Read`), `A1`, the qop choice, `A2`, the nonce count, the
`response` field and the outgoing username, and finally the assembled
header string.  `getDigestAuth` composes them with the source's early
returns; its `none` models the run-time abort inherited from
`parseWwwAuth`.
-/

/-- The source's `keyedDigest` (lines 162–164). -/
def keyedDigest (h : String → String) (secret data : String) : String :=
  h (secret ++ ":" ++ data)

/-- The source's `algorithms` table (lines 166–176). -/
def algorithms : List (String × (String → String)) :=
  [("MD5", md5hex), ("SHA-256", sha256hex), ("SHA-512-256", sha512_256hex)]

/-- The source's `valueOrDefault` (lines 179–184). -/
def valueOrDefault (value dflt : String) : String :=
  if value ≠ "" then value else dflt

/-- The source's `generateClientNonce` (lines 186–194): base64 of the 32
random bytes; the random source is passed in as the outcome of
`crypto/rand.Read` (`none` = failure to obtain randomness). -/
def generateClientNonce (randomBytes : Option (List Nat)) : Option String :=
  randomBytes.map base64Encode

/-- Line 208: the algorithm parameter, defaulting to `"MD5"`. -/
def algoStringRaw (params : List (String × String)) : String :=
  valueOrDefault (getStr params "algorithm") "MD5"

/-- Lines 209–215: session mode is a `-sess` suffix on the algorithm. -/
def sessOf (params : List (String × String)) : Bool :=
  goHasSuffix (algoStringRaw params) "-sess"

/-- Lines 211–215: the algorithm name with any `-sess` suffix stripped. -/
def algoStringOf (params : List (String × String)) : String :=
  if sessOf params then dropRightStr (algoStringRaw params) 5 else algoStringRaw params

/-- Lines 230–239: `A1`, in plain or session mode. -/
def a1Of (algo : String → String) (creds : credential) (params : List (String × String))
    (cnonce : String) : String :=
  let a1Components := [unquote creds.Username, unquote (getStr params "realm"), creds.Password]
  if sessOf params then
    goJoin ":" [algo (goJoin ":" a1Components), unquote (getStr params "nonce"), unquote cnonce]
  else
    goJoin ":" a1Components

/-- Lines 244–250: the qop choice: first option of the (default `"auth"`)
qop parameter split on `", "`, with the closing quote restored when the
split truncated a list. -/
def qopOf (params : List (String × String)) : String :=
  let qopOptions := goSplit2 ',' ' ' (valueOrDefault (getStr params "qop") "auth")
  let qop := qopOptions.headD ""
  if qopOptions.length > 1 then qop ++ "\"" else qop

/-- Lines 242–243 and 252–260: `A2` from the (default `"GET"`) method and
the request-target. -/
def a2Of (req : Request) : String :=
  goJoin ":" [valueOrDefault req.Method "GET", req.RequestURI]

/-- Line 263: the nonce count, hard-coded to 1. -/
def ncValue : String :=
  sprintf08x 1

/-- Lines 265–266: the quoted `response` field. -/
def responseOf (algo : String → String) (creds : credential) (req : Request)
    (params : List (String × String)) (cnonce : String) : String :=
  "\"" ++ keyedDigest algo (algo (a1Of algo creds params cnonce))
      (goJoin ":" [unquote (getStr params "nonce"), ncValue, unquote cnonce,
                   unquote (qopOf params), algo (a2Of req)]) ++ "\""

/-- Lines 271–275: the outgoing username, hashed when the challenge's
userhash parameter is literally `"true"`. -/
def usernameOf (algo : String → String) (creds : credential)
    (params : List (String × String)) : String :=
  if valueOrDefault (getStr params "userhash") "false" = "true" then
    algo (unquote creds.Username ++ ":" ++ unquote (getStr params "realm"))
  else creds.Username

/-- Lines 277–291: the assembled header value, with the trailing opaque
field appended only when non-empty. -/
def digestHeaderString (username realm requestURI algoString nonce nc cnonce qop response
    userhash opqValue : String) : String :=
  let ret := "Digest username=\"" ++ username ++
      "\", realm=" ++ realm ++
      ", uri=\"" ++ requestURI ++
      "\", algorithm=" ++ algoString ++
      ", nonce=" ++ nonce ++
      ", nc=" ++ nc ++
      ", cnonce=\"" ++ cnonce ++
      "\", qop=" ++ qop ++
      ", response=" ++ response ++
      ", userhash=" ++ userhash
  if opqValue ≠ "" then ret ++ ", opaque=" ++ opqValue else ret

/-- The source's `getDigestAuth` (lines 196–292), with its early returns:
empty string for a nil response or header container, an unresolvable
algorithm, a failed client-nonce generation, or an `auth-int` qop choice. -/
def getDigestAuth (rand : Option (List Nat)) (creds : credential) (req : Request)
    (resp : Option Response) : Option String :=
  match resp with
  | none => some ""
  | some r =>
    match r.header with
    | none => some ""
    | some hdr =>
      match parseWwwAuth hdr.wwwAuthenticate with
      | none => none
      | some params =>
        match mapLookup algorithms (algoStringOf params) with
        | none => some ""
        | some algo =>
          match generateClientNonce rand with
          | none => some ""
          | some cnonce =>
            if qopOf params = "auth-int" then some ""
            else
              some (digestHeaderString (usernameOf algo creds params)
                (getStr params "realm") req.RequestURI (algoStringOf params)
                (getStr params "nonce") ncValue cnonce (qopOf params)
                (responseOf algo creds req params cnonce)
                (valueOrDefault (getStr params "userhash") "false")
                (getStr params "opaque"))

/-! ## Authenticator dispatch (`getBasicAuth`, `TryGetAuth`) -/

/-- The source's `getBasicAuth` (lines 294–299).  Modelled from the spec:
the external `http.Request.SetBasicAuth` produces
`"Basic " + base64(username + ":" + password)`. -/
def getBasicAuth (creds : credential) : String :=
  "Basic " ++ base64Encode (strBytes (creds.Username ++ ":" ++ creds.Password))

/-- The source's `TryGetAuth` (lines 307–341): look up the request host;
with no credential return empty; with a credential but no usable response
guess Basic; otherwise dispatch on the first space-delimited word of the
`Www-Authenticate` value. -/
def TryGetAuth (auther : authenticator) (req : Request) (resp : Option Response)
    (rand : Option (List Nat)) : Option String :=
  match mapLookup auther.creds req.Hostname with
  | some creds =>
    match resp with
    | some r =>
      match r.header with
      | some hdr =>
        let scheme := (goSplitChar ' ' hdr.wwwAuthenticate).headD ""
        if scheme = "Basic" then some (getBasicAuth creds)
        else if scheme = "Digest" then getDigestAuth rand creds req resp
        else some ""
      | none => some (getBasicAuth creds)
    | none => some (getBasicAuth creds)
  | none => some ""


/-! ## Specification-side definition of the Digest response field

Written from the specification wording, to be compared against the
source-side `responseOf`:
`response = quote(hash(hash(A1) + ":" + unquote(nonce) + ":" + nc + ":" +
unquote(clientNonce) + ":" + unquote(qop) + ":" + hash(A2)))` with
`nc = "00000001"`, where in non-session mode
`A1 = unquote(username) + ":" + unquote(realm) + ":" + password`, in session
mode `A1 = hash(unquote(username) + ":" + unquote(realm) + ":" + password)
+ ":" + unquote(nonce) + ":" + unquote(clientNonce)`, and
`A2 = method + ":" + requestTarget` with an empty method defaulting to
`"GET"`.
-/

/-- The RFC 7616 response construction as the specification words it. -/
def specDigestResponse (h : String → String) (creds : credential) (req : Request)
    (params : List (String × String)) (cnonce : String) : String :=
  let A1 :=
    if sessOf params then
      h (unquote creds.Username ++ ":" ++ unquote (getStr params "realm") ++ ":" ++
          creds.Password) ++ ":" ++ unquote (getStr params "nonce") ++ ":" ++ unquote cnonce
    else
      unquote creds.Username ++ ":" ++ unquote (getStr params "realm") ++ ":" ++ creds.Password
  let A2 := (if req.Method = "" then "GET" else req.Method) ++ ":" ++ req.RequestURI
  "\"" ++ h (h A1 ++ ":" ++ unquote (getStr params "nonce") ++ ":" ++ "00000001" ++ ":" ++
      unquote cnonce ++ ":" ++ unquote (qopOf params) ++ ":" ++ h A2) ++ "\""

/-! ## General lemmas about the Go primitives -/

theorem mapLookup_insert_self {α : Type} (m : List (String × α)) (k : String) (v : α) :
    mapLookup (mapInsert m k v) k = some v := by
  induction m with
  | nil => simp [mapInsert, mapLookup]
  | cons p rest ih =>
    obtain ⟨k', v'⟩ := p
    by_cases h : k' = k
    · simp [mapInsert, mapLookup, h]
    · simp [mapInsert, mapLookup, h, ih]

theorem mapLookup_insert_ne {α : Type} (m : List (String × α)) (k k' : String) (v : α)
    (h : k' ≠ k) : mapLookup (mapInsert m k v) k' = mapLookup m k' := by
  have h2 : k ≠ k' := Ne.symm h
  induction m with
  | nil => simp [mapInsert, mapLookup, h2]
  | cons p rest ih =>
    obtain ⟨a, b⟩ := p
    by_cases ha : a = k
    · subst ha
      simp [mapInsert, mapLookup, h2, h]
    · by_cases ha' : a = k'
      · subst ha'
        simp [mapInsert, mapLookup, ha, h2, h]
      · simp [mapInsert, mapLookup, ha, ha', ih]

theorem mem_mapKeys_insert {α : Type} (m : List (String × α)) (k : String) (v : α)
    (x : String) : x ∈ mapKeys (mapInsert m k v) ↔ x ∈ mapKeys m ∨ x = k := by
  induction m with
  | nil => simp [mapInsert, mapKeys]
  | cons p rest ih =>
    obtain ⟨a, b⟩ := p
    by_cases ha : a = k
    · subst ha
      simp [mapInsert, mapKeys]
      tauto
    · simp [mapInsert, mapKeys, ha] at ih ⊢
      tauto

theorem nodup_mapKeys_insert {α : Type} (m : List (String × α)) (k : String) (v : α)
    (h : (mapKeys m).Nodup) : (mapKeys (mapInsert m k v)).Nodup := by
  induction m with
  | nil => simp [mapInsert, mapKeys]
  | cons p rest ih =>
    obtain ⟨a, b⟩ := p
    simp only [mapKeys, List.map_cons, List.nodup_cons] at h
    by_cases ha : a = k
    · subst ha
      simpa [mapInsert, mapKeys] using h
    · have hgoal : mapKeys (mapInsert ((a, b) :: rest) k v) =
          a :: mapKeys (mapInsert rest k v) := by
        simp [mapInsert, ha, mapKeys]
      rw [hgoal, List.nodup_cons]
      refine ⟨?_, ih h.2⟩
      intro hmem
      rcases (mem_mapKeys_insert rest k v a).1 hmem with h1 | h1
      · exact h.1 h1
      · exact ha h1

theorem populate_cons (st : List (String × credential)) (k p : String)
    (rest : List (String × String)) :
    populate st ((k, p) :: rest) = populate (mapInsert st k (splitUserPass p)) rest := rfl

theorem populate_lookup_of_not_mem (st : List (String × credential))
    (m : List (String × String)) (h : String) (hh : h ∉ mapKeys m) :
    mapLookup (populate st m) h = mapLookup st h := by
  induction m generalizing st with
  | nil => rfl
  | cons p rest ih =>
    obtain ⟨k, v⟩ := p
    simp only [mapKeys, List.map_cons, List.mem_cons] at hh
    push_neg at hh
    rw [populate_cons, ih _ (by simpa [mapKeys] using hh.2), mapLookup_insert_ne _ _ _ _ hh.1]

theorem populate_lookup_of_mem (st : List (String × credential))
    (m : List (String × String)) (h p : String) (hnd : (mapKeys m).Nodup)
    (hm : mapLookup m h = some p) :
    mapLookup (populate st m) h = some (splitUserPass p) := by
  induction m generalizing st with
  | nil => simp [mapLookup] at hm
  | cons q rest ih =>
    obtain ⟨k, v⟩ := q
    simp only [mapKeys, List.map_cons, List.nodup_cons] at hnd
    by_cases hk : k = h
    · subst hk
      simp [mapLookup] at hm
      subst hm
      rw [populate_cons, populate_lookup_of_not_mem _ _ _ (by simpa [mapKeys] using hnd.1),
        mapLookup_insert_self]
    · simp only [mapLookup, if_neg hk] at hm
      rw [populate_cons]
      exact ih _ (by simpa [mapKeys] using hnd.2) hm

theorem nodup_mapKeys_populate (st : List (String × credential))
    (m : List (String × String)) (h : (mapKeys st).Nodup) :
    (mapKeys (populate st m)).Nodup := by
  induction m generalizing st with
  | nil => exact h
  | cons q rest ih =>
    obtain ⟨k, v⟩ := q
    rw [populate_cons]
    exact ih _ (nodup_mapKeys_insert _ _ _ h)

theorem splitCharL_ne_nil (c : Char) (l : List Char) : splitCharL c l ≠ [] := by
  cases l with
  | nil => simp [splitCharL]
  | cons a rest =>
    by_cases h : a = c
    · simp [splitCharL, h]
    · simp only [splitCharL, if_neg h]
      cases hs : splitCharL c rest <;> simp

theorem goJoinL_cons_cons (sep x y : List Char) (ys : List (List Char)) :
    goJoinL sep (x :: y :: ys) = x ++ sep ++ goJoinL sep (y :: ys) := rfl

theorem goJoinL_splitCharL (c : Char) (l : List Char) :
    goJoinL [c] (splitCharL c l) = l := by
  induction l with
  | nil => rfl
  | cons a rest ih =>
    obtain ⟨t, ts, hts⟩ : ∃ t ts, splitCharL c rest = t :: ts := by
      cases hs : splitCharL c rest with
      | nil => exact absurd hs (splitCharL_ne_nil c rest)
      | cons t ts => exact ⟨t, ts, rfl⟩
    rw [hts] at ih
    by_cases h : a = c
    · subst h
      simp [splitCharL, hts, goJoinL_cons_cons, ih]
    · have hsp : splitCharL c (a :: rest) = (a :: t) :: ts := by
        simp [splitCharL, h, hts]
      rw [hsp]
      cases ts with
      | nil =>
        simp [goJoinL] at ih ⊢
        simp [ih]
      | cons y ys =>
        rw [goJoinL_cons_cons] at ih ⊢
        simp at ih ⊢
        simp [ih]

theorem splitCharL_not_mem (c : Char) (l : List Char) (h : c ∉ l) :
    splitCharL c l = [l] := by
  induction l with
  | nil => rfl
  | cons a rest ih =>
    simp only [List.mem_cons] at h
    push_neg at h
    have ha : a ≠ c := Ne.symm h.1
    simp [splitCharL, ha, ih h.2]

theorem splitCharL_append (c : Char) (u v : List Char) (h : c ∉ u) :
    splitCharL c (u ++ c :: v) = u :: splitCharL c v := by
  induction u with
  | nil => simp [splitCharL]
  | cons a rest ih =>
    simp only [List.mem_cons] at h
    push_neg at h
    have ha : a ≠ c := Ne.symm h.1
    have ih2 := ih h.2
    simp [splitCharL, ha, ih2]

theorem goJoin_mk (sepL : List Char) (ls : List (List Char)) :
    goJoin (String.mk sepL) (ls.map String.mk) = String.mk (goJoinL sepL ls) := by
  induction ls with
  | nil => rfl
  | cons x xs ih =>
    cases xs with
    | nil => rfl
    | cons y ys =>
      simp only [List.map_cons] at *
      rw [goJoinL_cons_cons]
      show String.mk x ++ String.mk sepL ++ goJoin (String.mk sepL)
          (String.mk y :: ys.map String.mk) = _
      rw [ih]
      rfl

theorem digestHeaderString_ne_empty (u r uri algo n nc cn q resp uh opq : String) :
    digestHeaderString u r uri algo n nc cn q resp uh opq ≠ "" := by
  have hpref : ("Digest username=\"" : String).length = 17 := rfl
  have hemp : ("" : String).length = 0 := rfl
  unfold digestHeaderString
  intro hc
  split_ifs at hc <;>
  · have hlen := congrArg String.length hc
    simp only [String.length_append] at hlen
    omega

theorem getDigestAuth_success (h : String → String) (creds : credential) (req : Request)
    (hdr : HeaderBag) (params : List (String × String)) (bytes : List Nat)
    (hparse : parseWwwAuth hdr.wwwAuthenticate = some params)
    (halgo : mapLookup algorithms (algoStringOf params) = some h)
    (hqop : qopOf params ≠ "auth-int") :
    getDigestAuth (some bytes) creds req (some ⟨some hdr⟩) =
      some (digestHeaderString (usernameOf h creds params) (getStr params "realm")
        req.RequestURI (algoStringOf params) (getStr params "nonce") ncValue
        (base64Encode bytes) (qopOf params) (responseOf h creds req params (base64Encode bytes))
        (valueOrDefault (getStr params "userhash") "false") (getStr params "opaque")) := by
  unfold getDigestAuth
  dsimp only
  rw [hparse]
  dsimp only
  rw [halgo]
  simp [generateClientNonce, hqop]

theorem responseOf_eq_spec (h : String → String) (creds : credential) (req : Request)
    (params : List (String × String)) (cnonce : String) :
    responseOf h creds req params cnonce = specDigestResponse h creds req params cnonce := by
  have hnc : ncValue = "00000001" := by decide
  unfold responseOf specDigestResponse keyedDigest a1Of a2Of
  simp only [hnc, valueOrDefault, goJoin, ite_not, String.append_assoc]

/-! ## Claim theorems -/

/-- C1: whenever the Digest Engine succeeds (algorithm resolvable via the
table, qop choice not auth-int, randomness available), the response field it
emits equals the RFC 7616 construction
`quote(hash(hash(A1) + ":" + unquote(nonce) + ":" + "00000001" + ":" +
unquote(clientNonce) + ":" + unquote(qop) + ":" + hash(A2)))` with `A1`/`A2`
as the specification words them (`specDigestResponse`); with a fixed client
nonce the whole header is a deterministic function of the inputs. -/
theorem c1_digest_response_matches_rfc (h : String → String) (creds : credential)
    (req : Request) (hdr : HeaderBag) (params : List (String × String)) (bytes : List Nat)
    (hparse : parseWwwAuth hdr.wwwAuthenticate = some params)
    (halgo : mapLookup algorithms (algoStringOf params) = some h)
    (hqop : qopOf params ≠ "auth-int") :
    getDigestAuth (some bytes) creds req (some ⟨some hdr⟩) =
      some (digestHeaderString (usernameOf h creds params) (getStr params "realm")
        req.RequestURI (algoStringOf params) (getStr params "nonce") ncValue
        (base64Encode bytes) (qopOf params)
        (specDigestResponse h creds req params (base64Encode bytes))
        (valueOrDefault (getStr params "userhash") "false") (getStr params "opaque")) := by
  rw [getDigestAuth_success h creds req hdr params bytes hparse halgo hqop,
    responseOf_eq_spec]

/-- Witness for C1 at a concrete challenge (realm `test`, nonce `abc123`,
qop `auth`, default algorithm MD5) and fixed random bytes. -/
theorem c1_witness :
    getDigestAuth (some (List.replicate 32 0)) ⟨"Mufasa", "pw"⟩ ⟨"", "h", "/dir/index.html"⟩
      (some ⟨some ⟨"Digest realm=\"test\", nonce=\"abc123\", qop=\"auth\""⟩⟩) =
      some (digestHeaderString
        (usernameOf md5hex ⟨"Mufasa", "pw"⟩
          [("realm", "\"test\""), ("nonce", "\"abc123\""), ("qop", "\"auth\"")])
        (getStr [("realm", "\"test\""), ("nonce", "\"abc123\""), ("qop", "\"auth\"")] "realm")
        "/dir/index.html"
        (algoStringOf [("realm", "\"test\""), ("nonce", "\"abc123\""), ("qop", "\"auth\"")])
        (getStr [("realm", "\"test\""), ("nonce", "\"abc123\""), ("qop", "\"auth\"")] "nonce")
        ncValue (base64Encode (List.replicate 32 0))
        (qopOf [("realm", "\"test\""), ("nonce", "\"abc123\""), ("qop", "\"auth\"")])
        (specDigestResponse md5hex ⟨"Mufasa", "pw"⟩ ⟨"", "h", "/dir/index.html"⟩
          [("realm", "\"test\""), ("nonce", "\"abc123\""), ("qop", "\"auth\"")]
          (base64Encode (List.replicate 32 0)))
        (valueOrDefault
          (getStr [("realm", "\"test\""), ("nonce", "\"abc123\""), ("qop", "\"auth\"")] "userhash")
          "false")
        (getStr [("realm", "\"test\""), ("nonce", "\"abc123\""), ("qop", "\"auth\"")] "opaque")) :=
  c1_digest_response_matches_rfc md5hex ⟨"Mufasa", "pw"⟩ ⟨"", "h", "/dir/index.html"⟩
    ⟨"Digest realm=\"test\", nonce=\"abc123\", qop=\"auth\""⟩
    [("realm", "\"test\""), ("nonce", "\"abc123\""), ("qop", "\"auth\"")]
    (List.replicate 32 0) (by decide) rfl (by decide)

/-- C9: whenever the Digest Engine succeeds, the produced header lists the
comma-separated fields in exactly the order username, realm, uri, algorithm,
nonce, nc, cnonce, qop, response, userhash — with username, uri, cnonce and
response quoted by the engine and the remaining fields passed through in
their raw parsed form — and an opaque field is appended if and only if the
challenge supplied a non-empty opaque value. -/
theorem c9_field_order_and_quoting (h : String → String) (creds : credential)
    (req : Request) (hdr : HeaderBag) (params : List (String × String)) (bytes : List Nat)
    (hparse : parseWwwAuth hdr.wwwAuthenticate = some params)
    (halgo : mapLookup algorithms (algoStringOf params) = some h)
    (hqop : qopOf params ≠ "auth-int") :
    getDigestAuth (some bytes) creds req (some ⟨some hdr⟩) =
      some ("Digest username=\"" ++ usernameOf h creds params ++
        "\", realm=" ++ getStr params "realm" ++
        ", uri=\"" ++ req.RequestURI ++
        "\", algorithm=" ++ algoStringOf params ++
        ", nonce=" ++ getStr params "nonce" ++
        ", nc=" ++ ncValue ++
        ", cnonce=\"" ++ base64Encode bytes ++
        "\", qop=" ++ qopOf params ++
        ", response=" ++ responseOf h creds req params (base64Encode bytes) ++
        ", userhash=" ++ valueOrDefault (getStr params "userhash") "false" ++
        (if getStr params "opaque" ≠ "" then ", opaque=" ++ getStr params "opaque" else "")) := by
  rw [getDigestAuth_success h creds req hdr params bytes hparse halgo hqop]
  unfold digestHeaderString
  by_cases hop : getStr params "opaque" ≠ ""
  · rw [if_pos hop, if_pos hop]
    simp only [String.append_assoc]
  · rw [if_neg hop, if_neg hop]
    simp only [String.append_empty]

/-- Witness for C9 at a concrete challenge carrying an opaque value. -/
theorem c9_witness :
    getDigestAuth (some (List.replicate 32 0)) ⟨"u", "p"⟩ ⟨"", "h", "/x"⟩
      (some ⟨some ⟨"Digest realm=\"r\", nonce=\"n\", opaque=\"xyz\""⟩⟩) =
      some ("Digest username=\"" ++
        usernameOf md5hex ⟨"u", "p"⟩
          [("realm", "\"r\""), ("nonce", "\"n\""), ("opaque", "\"xyz\"")] ++
        "\", realm=" ++
        getStr [("realm", "\"r\""), ("nonce", "\"n\""), ("opaque", "\"xyz\"")] "realm" ++
        ", uri=\"" ++ "/x" ++
        "\", algorithm=" ++
        algoStringOf [("realm", "\"r\""), ("nonce", "\"n\""), ("opaque", "\"xyz\"")] ++
        ", nonce=" ++
        getStr [("realm", "\"r\""), ("nonce", "\"n\""), ("opaque", "\"xyz\"")] "nonce" ++
        ", nc=" ++ ncValue ++
        ", cnonce=\"" ++ base64Encode (List.replicate 32 0) ++
        "\", qop=" ++ qopOf [("realm", "\"r\""), ("nonce", "\"n\""), ("opaque", "\"xyz\"")] ++
        ", response=" ++
        responseOf md5hex ⟨"u", "p"⟩ ⟨"", "h", "/x"⟩
          [("realm", "\"r\""), ("nonce", "\"n\""), ("opaque", "\"xyz\"")]
          (base64Encode (List.replicate 32 0)) ++
        ", userhash=" ++
        valueOrDefault
          (getStr [("realm", "\"r\""), ("nonce", "\"n\""), ("opaque", "\"xyz\"")] "userhash")
          "false" ++
        (if getStr [("realm", "\"r\""), ("nonce", "\"n\""), ("opaque", "\"xyz\"")] "opaque"
            ≠ "" then
          ", opaque=" ++
            getStr [("realm", "\"r\""), ("nonce", "\"n\""), ("opaque", "\"xyz\"")] "opaque"
        else "")) :=
  c9_field_order_and_quoting md5hex ⟨"u", "p"⟩ ⟨"", "h", "/x"⟩
    ⟨"Digest realm=\"r\", nonce=\"n\", opaque=\"xyz\""⟩
    [("realm", "\"r\""), ("nonce", "\"n\""), ("opaque", "\"xyz\"")]
    (List.replicate 32 0) (by decide) rfl (by decide)

/-- C4 (code bug): the source means to reject the unsupported auth-int
quality of protection, but its comparison tests the literal `auth-int`
against the raw parsed qop value, which retains the challenge's quotes.
For the RFC wire form `qop="auth-int"` the comparison fails and a full
Digest header is produced (left conjunct), while only the unquoted form
`qop=auth-int` is rejected with the empty string (right conjunct). -/
theorem c4_quoted_authint_not_rejected :
    getDigestAuth (some (List.replicate 32 0)) ⟨"u", "p"⟩ ⟨"", "h", "/x"⟩
      (some ⟨some ⟨"Digest realm=\"r\", nonce=\"n\", qop=\"auth-int\""⟩⟩) ≠ some "" ∧
    getDigestAuth (some (List.replicate 32 0)) ⟨"u", "p"⟩ ⟨"", "h", "/x"⟩
      (some ⟨some ⟨"Digest realm=\"r\", nonce=\"n\", qop=auth-int"⟩⟩) = some "" := by
  constructor
  · rw [getDigestAuth_success md5hex ⟨"u", "p"⟩ ⟨"", "h", "/x"⟩
      ⟨"Digest realm=\"r\", nonce=\"n\", qop=\"auth-int\""⟩
      [("realm", "\"r\""), ("nonce", "\"n\""), ("qop", "\"auth-int\"")]
      (List.replicate 32 0) (by decide) rfl (by decide)]
    intro hc
    exact digestHeaderString_ne_empty _ _ _ _ _ _ _ _ _ _ _ (Option.some.inj hc)
  · decide

/-- C2: `TryGetAuth` is a three-branch case analysis: no credential for the
request hostname gives the empty string regardless of the response; a
credential with no usable response (absent, or nil header container) gives a
Basic header; a credential with a usable response dispatches on the first
space-delimited word of the `Www-Authenticate` value — `Basic` gives the
Basic header, `Digest` delegates to the Digest Engine, anything else gives
the empty string with no fallback. -/
theorem c2_tryGetAuth_dispatch (auther : authenticator) (req : Request)
    (resp : Option Response) (rand : Option (List Nat)) :
    (mapLookup auther.creds req.Hostname = none →
      TryGetAuth auther req resp rand = some "") ∧
    (∀ creds, mapLookup auther.creds req.Hostname = some creds →
      (resp = none ∨ ∃ r, resp = some r ∧ r.header = none) →
      TryGetAuth auther req resp rand = some (getBasicAuth creds)) ∧
    (∀ creds r hdr, mapLookup auther.creds req.Hostname = some creds →
      resp = some r → r.header = some hdr →
      TryGetAuth auther req resp rand =
        (if (goSplitChar ' ' hdr.wwwAuthenticate).headD "" = "Basic" then
          some (getBasicAuth creds)
        else if (goSplitChar ' ' hdr.wwwAuthenticate).headD "" = "Digest" then
          getDigestAuth rand creds req resp
        else some "")) := by
  refine ⟨?_, ?_, ?_⟩
  · intro hnone
    simp [TryGetAuth, hnone]
  · rintro creds hsome (rfl | ⟨r, rfl, hh⟩)
    · simp [TryGetAuth, hsome]
    · simp [TryGetAuth, hsome, hh]
  · rintro creds r hdr hsome rfl hh
    simp [TryGetAuth, hsome, hh]

/-- Witness for C2: an `NTLM` challenge with a stored credential yields the
empty string (no Basic fallback). -/
theorem c2_witness :
    TryGetAuth ⟨[("h", ⟨"u", "p"⟩)]⟩ ⟨"", "h", "/x"⟩ (some ⟨some ⟨"NTLM challenge"⟩⟩) none =
      some "" := by
  have hthm := (c2_tryGetAuth_dispatch ⟨[("h", ⟨"u", "p"⟩)]⟩ ⟨"", "h", "/x"⟩
    (some ⟨some ⟨"NTLM challenge"⟩⟩) none).2.2 ⟨"u", "p"⟩ ⟨some ⟨"NTLM challenge"⟩⟩
    ⟨"NTLM challenge"⟩ (by decide) rfl rfl
  rw [hthm]
  decide

/-- C5 (code bug): the challenge parser is not total — a header whose `=` is
followed by an empty segment (`"x="`) or by a segment whose first
space-delimited word is empty (`"x= y"`) drives the Go source into an
out-of-range string slice (`token[:1]` respectively `value[len(value)-1:]`),
a run-time abort modelled by `none`; the empty header does return the empty
mapping as the claim states. -/
theorem c5_parse_range_abort :
    parseWwwAuth "x=" = none ∧ parseWwwAuth "x= y" = none ∧ parseWwwAuth "" = some [] := by
  decide

/-- C8: a credential payload splits on the first colon only: the username is
everything before it, the password everything after it with later colons
preserved; a payload with no colon is all username with empty password, and
the empty payload gives empty username and password. -/
theorem c8_payload_first_colon_split :
    (∀ u p : String, ':' ∉ u.data → splitUserPass (u ++ ":" ++ p) = ⟨u, p⟩) ∧
    (∀ s : String, ':' ∉ s.data → splitUserPass s = ⟨s, ""⟩) ∧
    splitUserPass "" = ⟨"", ""⟩ ∧
    splitUserPass "user:pa:ss" = ⟨"user", "pa:ss"⟩ := by
  refine ⟨?_, ?_, by decide, by decide⟩
  · intro u p hu
    obtain ⟨t, ts, hts⟩ : ∃ t ts, splitCharL ':' p.data = t :: ts := by
      cases hs : splitCharL ':' p.data with
      | nil => exact absurd hs (splitCharL_ne_nil ':' p.data)
      | cons t ts => exact ⟨t, ts, rfl⟩
    have hdata : (u ++ ":" ++ p).data = u.data ++ ':' :: p.data := by
      simp [String.data_append]
    have hcolon : (":" : String) = String.mk [':'] := rfl
    have hjoin : goJoin ":" (List.map String.mk (t :: ts)) = p := by
      rw [hcolon, goJoin_mk [':'] (t :: ts), ← hts, goJoinL_splitCharL]
    simp only [List.map_cons] at hjoin
    unfold splitUserPass goSplitChar
    rw [hdata, splitCharL_append _ _ _ hu, hts]
    simp only [List.map_cons, List.headD_cons, List.tail_cons, List.length_cons]
    rw [if_pos (by omega), hjoin]
  · intro s hs
    unfold splitUserPass goSplitChar
    rw [splitCharL_not_mem _ _ hs]
    rfl

/-- Witness for C8: the positive split at the concrete payload `user:pa:ss`
and the colon-free payload `user`. -/
theorem c8_witness :
    splitUserPass ("user" ++ ":" ++ "pa:ss") = ⟨"user", "pa:ss"⟩ ∧
    splitUserPass "justuser" = ⟨"justuser", ""⟩ :=
  ⟨c8_payload_first_colon_split.1 "user" "pa:ss" (by decide),
   c8_payload_first_colon_split.2.1 "justuser" (by decide)⟩

theorem unquote_eq (s : String) :
    unquote s =
      if 2 ≤ s.data.length then
        String.mk (replaceEscQuote
          (if s.data.headD ' ' = '\"' ∧ s.data.getLastD ' ' = '\"' then
            (s.data.drop 1).take (s.data.length - 2)
          else s.data))
      else s := by
  unfold unquote
  by_cases h1 : 2 ≤ s.data.length
  · rw [if_pos h1, if_pos h1]
    by_cases h2 : s.data.headD ' ' = '\"' ∧ s.data.getLastD ' ' = '\"'
    · rw [if_pos h2, if_pos h2]
    · rw [if_neg h2, if_neg h2]
  · rw [if_neg h1, if_neg h1]

theorem replaceEscQuote_of_not_mem (l : List Char) (h : '\\' ∉ l) :
    replaceEscQuote l = l := by
  induction l with
  | nil => rfl
  | cons a rest ih =>
    simp only [List.mem_cons] at h
    push_neg at h
    cases rest with
    | nil => rfl
    | cons b r2 =>
      have ha : ¬(a = '\\' ∧ b = '\"') := fun hc => (Ne.symm h.1) hc.1
      simp only [replaceEscQuote, if_neg ha]
      rw [ih h.2]

theorem getLastD_append_singleton (l : List Char) (a : Char) :
    ∀ d, (l ++ [a]).getLastD d = a := by
  induction l with
  | nil => intro d; rfl
  | cons b rest ih =>
    intro d
    rw [List.cons_append, List.getLastD_cons]
    exact ih b

/-- C6: parsing the round-trip header keeps the surrounding quotes on the
values, `unquote` of the parsed realm is the bare `test`, and `unquote`
strips one matching pair of surrounding quotes only for strings of length at
least two with quotes at both ends, un-escapes backslash-quote to quote, and
performs no other escape processing (backslash-free strings pass through
unchanged). -/
theorem c6_parse_unquote_roundtrip :
    parseWwwAuth "Digest realm=\"test\", nonce=\"abc123\", qop=\"auth\"" =
      some [("realm", "\"test\""), ("nonce", "\"abc123\""), ("qop", "\"auth\"")] ∧
    unquote "\"test\"" = "test" ∧
    (∀ s : String, s.data.length < 2 → unquote s = s) ∧
    (∀ m : List Char,
      unquote (String.mk ('\"' :: m ++ ['\"'])) = String.mk (replaceEscQuote m)) ∧
    (∀ s : String, 2 ≤ s.data.length →
      ¬(s.data.headD ' ' = '\"' ∧ s.data.getLastD ' ' = '\"') →
      unquote s = String.mk (replaceEscQuote s.data)) ∧
    (∀ r : List Char, replaceEscQuote ('\\' :: '\"' :: r) = '\"' :: replaceEscQuote r) ∧
    (∀ l : List Char, '\\' ∉ l → replaceEscQuote l = l) := by
  refine ⟨by decide, by decide, ?_, ?_, ?_, ?_, replaceEscQuote_of_not_mem⟩
  · intro s hlen
    rw [unquote_eq, if_neg (by omega)]
  · intro m
    have hdata : (String.mk ('\"' :: m ++ ['\"'])).data = '\"' :: m ++ ['\"'] := rfl
    have hlast : ('\"' :: m ++ ['\"']).getLastD ' ' = '\"' := by
      show (('\"' :: m) ++ ['\"']).getLastD ' ' = '\"'
      exact getLastD_append_singleton _ _ ' '
    have hlen : ('\"' :: m ++ ['\"']).length = m.length + 2 := by simp
    rw [unquote_eq, hdata, hlen, if_pos (by omega),
      if_pos ⟨rfl, hlast⟩]
    have hdrop : ('\"' :: m ++ ['\"']).drop 1 = m ++ ['\"'] := rfl
    rw [hdrop]
    have htake : (m ++ ['\"']).take (m.length + 2 - 2) = m := by
      simp
    rw [htake]
  · intro s hlen hcond
    rw [unquote_eq, if_pos hlen, if_neg hcond]
  · intro r
    simp [replaceEscQuote]

/-- Witness for C6 at concrete strings for each hypothesis-bearing part. -/
theorem c6_witness :
    unquote "a" = "a" ∧
    unquote (String.mk ('\"' :: "x".data ++ ['\"'])) = String.mk (replaceEscQuote "x".data) ∧
    unquote "ab" = String.mk (replaceEscQuote "ab".data) ∧
    replaceEscQuote "no".data = "no".data :=
  ⟨c6_parse_unquote_roundtrip.2.2.1 "a" (by decide),
   c6_parse_unquote_roundtrip.2.2.2.1 "x".data,
   c6_parse_unquote_roundtrip.2.2.2.2.1 "ab" (by decide) (by decide),
   c6_parse_unquote_roundtrip.2.2.2.2.2.2 "no".data (by decide)⟩

theorem newAuth_err (fs : String → Option (List String)) (credsFilename : String)
    (om : Option (List (String × String))) :
    (NewAuthenticator fs credsFilename om).2 =
      if credsFilename ≠ "" then (readCreds fs credsFilename).2 else false := by
  unfold NewAuthenticator
  by_cases h : credsFilename ≠ ""
  · simp only [if_pos h]
  · simp only [if_neg h]

theorem newAuth_store_some (fs : String → Option (List String)) (credsFilename : String)
    (m : List (String × String)) :
    (NewAuthenticator fs credsFilename (some m)).1.creds =
      populate (if credsFilename ≠ "" then populate [] (readCreds fs credsFilename).1 else [])
        m := by
  unfold NewAuthenticator
  by_cases h : credsFilename ≠ ""
  · simp only [if_pos h]
  · simp only [if_neg h]

theorem newAuth_store_none (fs : String → Option (List String)) (credsFilename : String) :
    (NewAuthenticator fs credsFilename none).1.creds =
      if credsFilename ≠ "" then populate [] (readCreds fs credsFilename).1 else [] := by
  unfold NewAuthenticator
  by_cases h : credsFilename ≠ ""
  · simp only [if_pos h]
  · simp only [if_neg h]

/-- C3 counterexample: a file name whose open fails makes `NewAuthenticator`
return a non-nil error — construction does fail in the Go error-value sense
on a missing or unreadable credentials file. -/
theorem c3_counterexample :
    (NewAuthenticator (fun _ => none) "creds.txt" none).2 = true := by
  decide

/-- C3 (amended): the explicit credential mapping never causes an error, and
construction always yields a usable store holding every explicit entry; but
a missing or unreadable credentials file does surface as a non-nil returned
error — the returned error is non-nil exactly when a file name was given
and its open failed. -/
theorem c3_error_iff_file_open_failure (fs : String → Option (List String))
    (credsFilename : String) (m : List (String × String)) (hnd : (mapKeys m).Nodup) :
    ((NewAuthenticator fs credsFilename (some m)).2 = true ↔
      credsFilename ≠ "" ∧ fs credsFilename = none) ∧
    (∀ h p, mapLookup m h = some p →
      mapLookup (NewAuthenticator fs credsFilename (some m)).1.creds h =
        some (splitUserPass p)) := by
  constructor
  · rw [newAuth_err]
    by_cases hfn : credsFilename ≠ ""
    · rw [if_pos hfn]
      unfold readCreds
      cases hfs : fs credsFilename with
      | none => simp [hfn]
      | some lines => simp [hfn]
    · rw [if_neg hfn]
      simp [hfn]
  · intro h p hm
    rw [newAuth_store_some]
    exact populate_lookup_of_mem _ _ _ _ hnd hm

/-- Witness for C3 at a concrete missing file and explicit mapping. -/
theorem c3_witness :
    (NewAuthenticator (fun _ => none) "creds.txt" (some [("h", "b:2")])).2 = true ∧
    mapLookup (NewAuthenticator (fun _ => none) "creds.txt"
      (some [("h", "b:2")])).1.creds "h" = some (splitUserPass "b:2") := by
  have hthm := c3_error_iff_file_open_failure (fun _ => none) "creds.txt" [("h", "b:2")]
    (by decide)
  exact ⟨hthm.1.2 ⟨by decide, rfl⟩, hthm.2 "h" "b:2" (by decide)⟩

/-- C7: the store maps each host to at most one credential (its key list has
no duplicates), a host present in the explicit mapping always ends up bound
to the explicit credential (the explicit pass runs last and overwrites), and
the concrete file entry `h ↦ a:1` with explicit entry `h ↦ b:2` yields the
credential `{b, 2}`. -/
theorem c7_explicit_overrides_file :
    (∀ (fs : String → Option (List String)) (credsFilename : String)
        (om : Option (List (String × String))),
      (mapKeys (NewAuthenticator fs credsFilename om).1.creds).Nodup) ∧
    (∀ (fs : String → Option (List String)) (credsFilename : String)
        (m : List (String × String)) (h p : String),
      (mapKeys m).Nodup → mapLookup m h = some p →
      mapLookup (NewAuthenticator fs credsFilename (some m)).1.creds h =
        some (splitUserPass p)) ∧
    mapLookup (NewAuthenticator (fun n => if n = "f" then some ["h a:1"] else none) "f"
      (some [("h", "b:2")])).1.creds "h" = some ⟨"b", "2"⟩ := by
  have base : (mapKeys ([] : List (String × credential))).Nodup := by simp [mapKeys]
  refine ⟨?_, ?_, by decide⟩
  · intro fs credsFilename om
    cases om with
    | some m =>
      rw [newAuth_store_some]
      by_cases hfn : credsFilename ≠ ""
      · rw [if_pos hfn]
        exact nodup_mapKeys_populate _ _ (nodup_mapKeys_populate _ _ base)
      · rw [if_neg hfn]
        exact nodup_mapKeys_populate _ _ base
    | none =>
      rw [newAuth_store_none]
      by_cases hfn : credsFilename ≠ ""
      · rw [if_pos hfn]
        exact nodup_mapKeys_populate _ _ base
      · rw [if_neg hfn]
        exact base
  · intro fs credsFilename m h p hnd hm
    rw [newAuth_store_some]
    exact populate_lookup_of_mem _ _ _ _ hnd hm

/-- Witness for C7's universally quantified parts at a concrete store. -/
theorem c7_witness :
    (mapKeys (NewAuthenticator (fun _ => none) "" (some [("h", "b:2")])).1.creds).Nodup ∧
    mapLookup (NewAuthenticator (fun _ => none) "" (some [("h", "b:2")])).1.creds "h" =
      some (splitUserPass "b:2") :=
  ⟨c7_explicit_overrides_file.1 (fun _ => none) "" (some [("h", "b:2")]),
   c7_explicit_overrides_file.2.1 (fun _ => none) "" [("h", "b:2")] "h" "b:2"
     (by decide) (by decide)⟩

/-- C10: when the credentials file cannot be opened (and a file name was
given), `NewAuthenticator` returns a non-nil error together with a still
usable authenticator: the explicit pass runs regardless, so every explicit
entry is present in the returned store. -/
theorem c10_file_error_with_usable_store (fs : String → Option (List String))
    (credsFilename : String) (m : List (String × String)) (hnd : (mapKeys m).Nodup)
    (hfn : credsFilename ≠ "") (hopen : fs credsFilename = none) :
    (NewAuthenticator fs credsFilename (some m)).2 = true ∧
    ∀ h p, mapLookup m h = some p →
      mapLookup (NewAuthenticator fs credsFilename (some m)).1.creds h =
        some (splitUserPass p) := by
  constructor
  · rw [newAuth_err, if_pos hfn]
    unfold readCreds
    rw [hopen]
  · intro h p hm
    rw [newAuth_store_some]
    exact populate_lookup_of_mem _ _ _ _ hnd hm

/-- Witness for C10 at a concrete unreadable file and explicit entry. -/
theorem c10_witness :
    (NewAuthenticator (fun _ => none) "f" (some [("host", "u:p")])).2 = true ∧
    mapLookup (NewAuthenticator (fun _ => none) "f"
      (some [("host", "u:p")])).1.creds "host" = some (splitUserPass "u:p") := by
  have hthm := c10_file_error_with_usable_store (fun _ => none) "f" [("host", "u:p")]
    (by decide) (by decide) rfl
  exact ⟨hthm.1, hthm.2 "host" "u:p" (by decide)⟩
